import Mathlib

/-!
Shallow embedding of src/lang/LangPrimSource/PyrSerialPrim.cpp: the
SerialPort engine (options, asio port handle, rx FIFO, overflow counter),
its member functions, and the language primitives built on it. Definitions
follow the source line by line; where the behaviour of the boost asio
serial_port handle decides an operation (cancel, close, write_some on a
closed handle), the model follows the documented boost asio semantics and
says so in the doc comment.
-/

namespace PyrSerial

/-- Parity mode of the serial line, serial_port parity type in the source. -/
inductive Parity
  | parNone
  | parEven
  | parOdd
deriving DecidableEq, Repr

/-- Number of stop bits, serial_port stop_bits type in the source. -/
inductive StopBits
  | one
  | two
deriving DecidableEq, Repr

/-- Flow control mode, serial_port flow_control type in the source. -/
inductive FlowControl
  | hardware
  | software
deriving DecidableEq, Repr

/-- SerialPort::kNumOptions from the source. -/
def kNumOptions : Nat := 7

/-- SerialPort::kBufferSize from the source: capacity of the rx FIFO and
size of the read scratch buffer. -/
def kBufferSize : Nat := 8192

/-- SerialPort::Options from the source; defaults follow the member
initializers of the C++ struct. -/
structure Options where
  exclusive : Bool := false
  baudrate : Nat := 9600
  charsize : Nat := 8
  stop_bits : StopBits := StopBits.two
  parity : Parity := Parity.parNone
  crtscts : Bool := false
  flow_control : FlowControl := FlowControl.hardware
deriving DecidableEq, Repr

/-- asParityType from the source: maps the integer parity code to a parity
mode; unknown codes print a warning and default to none. -/
def asParityType (i : Int) : Parity :=
  if i = 0 then Parity.parNone
  else if i = 1 then Parity.parEven
  else if i = 2 then Parity.parOdd
  else Parity.parNone

/-- Error codes of the boost system library that this model distinguishes:
operation_aborted is reported to the handler of a cancelled asynchronous
operation, bad_descriptor is reported by operations on a closed handle. -/
inductive ErrorCode
  | operationAborted
  | badDescriptor
  | otherError
deriving DecidableEq, Repr

/-- Kind of asynchronous operation issued on the port handle. -/
inductive OpKind
  | read
  | write
deriving DecidableEq, Repr

/-- State of the native asio serial_port handle: whether it is open. -/
structure AsioPort where
  isOpen : Bool
deriving DecidableEq, Repr

/-- State of one SerialPort engine, mirroring the data members of class
SerialPort in the source: the host object back reference m_obj, the asio
handle m_port, the options m_options, the two slots of m_rxErrors (index 0
is the value at the last query, index 1 the running total), the rx FIFO
m_rxfifo (front of the list is the oldest byte), and additionally the kind
of asynchronous operation currently outstanding on the handle, if any
(recording which async call was issued and has not completed). The error
counter slots are modelled as starting at zero (the source leaves the int
array without an explicit initializer; the delta logic below only depends
on the two slots starting equal). -/
structure SerialPort where
  m_obj : Option Nat
  m_port : AsioPort
  m_options : Options
  m_rxErrors0 : Int
  m_rxErrors1 : Int
  m_rxfifo : List Nat
  pendingOp : Option OpKind
deriving DecidableEq, Repr

/-- SerialPort::startRead from the source. Its body calls
m_port.async_write_some on the scratch buffer m_rxbuffer, with doRead bound
as the completion handler: the asynchronous operation issued is a WRITE of
the scratch buffer contents, not a read. -/
def SerialPort.startRead (p : SerialPort) : SerialPort :=
  { p with pendingOp := some OpKind.write }

/-- SerialPort::put from the source: a blocking write_some of the one byte
buffer on the caller thread, returning whether exactly one byte was
written. The devAccept argument models how many bytes of the buffer the
device layer accepts. Per documented asio semantics, write_some (the
throwing overload, as called in the source) raises bad_descriptor when the
handle is closed, and that exception escapes put. The result carries the
success boolean and the list of bytes that reached the device; the uint8_t
parameter conversion truncates the byte argument modulo 256. -/
def SerialPort.put (p : SerialPort) (byte : Nat) (devAccept : Nat) :
    Except ErrorCode (Bool × List Nat) :=
  if p.m_port.isOpen then
    let written := min devAccept 1
    Except.ok (written == 1, if written = 1 then [byte % 256] else [])
  else
    Except.error ErrorCode.badDescriptor

/-- SerialPort::get from the source: a non blocking pop from the rx FIFO;
on success the popped byte is masked with 0xFF and stored through the out
pointer. Returns the popped byte, if any, and the new engine state. -/
def SerialPort.get (p : SerialPort) : Option Nat × SerialPort :=
  match p.m_rxfifo with
  | [] => (none, p)
  | b :: rest => (some (b % 256), { p with m_rxfifo := rest })

/-- SerialPort::rxErrors from the source: reads the running total, returns
total minus the value at the last query, then records the total as the last
queried value. -/
def SerialPort.rxErrors (p : SerialPort) : Int × SerialPort :=
  (p.m_rxErrors1 - p.m_rxErrors0, { p with m_rxErrors0 := p.m_rxErrors1 })

/-- The cancel call on the handle, as issued by SerialPort::stop (the
throwing overload). Documented asio semantics: when the handle is not open
the call reports bad_descriptor, which the throwing overload raises;
otherwise all outstanding asynchronous operations are cancelled and their
handlers will run with error operation_aborted. -/
def SerialPort.cancelPort (p : SerialPort) : Except ErrorCode SerialPort :=
  if p.m_port.isOpen then Except.ok { p with pendingOp := none }
  else Except.error ErrorCode.badDescriptor

/-- The close call on the handle, as issued by SerialPort::stop (the
throwing overload). Documented asio semantics: closing an already closed
handle is a successful no op. -/
def SerialPort.closePort (p : SerialPort) : SerialPort :=
  { p with m_port := { isOpen := false } }

/-- SerialPort::stop from the source: m_port.cancel() then m_port.close(),
both throwing overloads and neither wrapped in a try block, so an error
raised by cancel escapes stop (and the destructor, which calls stop). -/
def SerialPort.stop (p : SerialPort) : Except ErrorCode SerialPort :=
  match p.cancelPort with
  | Except.error e => Except.error e
  | Except.ok q => Except.ok q.closePort

/-- One iteration of the push loop in SerialPort::doRead: push one scratch
buffer byte into the single producer single consumer FIFO of capacity
kBufferSize; when the FIFO is full the push fails, the byte is dropped and
the overflow total m_rxErrors[1] is incremented. Reading the scratch buffer
cell into uint8_t keeps the value below 256. -/
def pushByte (p : SerialPort) (b : Nat) : SerialPort :=
  if p.m_rxfifo.length < kBufferSize then
    { p with m_rxfifo := p.m_rxfifo ++ [b % 256] }
  else
    { p with m_rxErrors1 := p.m_rxErrors1 + 1 }

/-- The push loop of SerialPort::doRead over the first bytesTransferred
cells of the scratch buffer, given here as a list, in index order. -/
def pushBytes (p : SerialPort) (bs : List Nat) : SerialPort :=
  bs.foldl pushByte p

/-- SerialPort::doRead from the source, the completion handler of the
operation issued by startRead. On an error completion it prints the error
message and calls startRead again unconditionally: there is no check of
any stopped state anywhere in the handler. On a success completion it
pushes the transferred bytes into the FIFO, fires the dataAvailable
callback (which runs the interpreter and changes no engine state), then
calls startRead again. -/
def SerialPort.doRead (p : SerialPort) (error : Option ErrorCode)
    (bytes : List Nat) : SerialPort :=
  match error with
  | some _ => p.startRead
  | none => (pushBytes p bytes).startRead

/-- Environment of one construction attempt: whether opening the device
(the m_port member construction) throws, and whether the i-th of the five
set_option calls throws, in source order: baud rate, parity, character
size, stop bits, flow control. -/
structure OpenEnv where
  openFails : Bool
  optionFails : Nat → Bool

/-- Names of the five set_option calls the constructor issues, in source
order. -/
def optionNames : List String :=
  ["baud_rate", "parity", "character_size", "stop_bits", "flow_control"]

/-- SerialPort::SerialPort from the source: member construction of m_port
opens the device (throwing on failure), then the body applies exactly five
set_option calls in order (baud rate, parity, character size, stop bits,
flow control), each of which may throw. The exclusive and crtscts options
are not applied to the handle: the body marks both with FIXME comments.
The body never calls startRead, so no asynchronous operation is
outstanding on the freshly constructed engine. Returns the constructed
engine or a description of the escaping exception, paired with whether an
open native handle remains after a failed construction: when the body
throws after m_port was constructed, C++ object lifetime rules destroy the
m_port member, whose destructor closes the handle, so no handle survives a
failure. -/
def serialPortConstruct (obj : Option Nat) (env : OpenEnv) (o : Options) :
    Except String SerialPort × Bool :=
  if env.openFails then
    (Except.error "SerialPort Error: open failed", false)
  else
    match (List.range 5).find? env.optionFails with
    | some i =>
        (Except.error ("SerialPort Error: set_option failed: "
          ++ optionNames.getD i ""), false)
    | none =>
        (Except.ok
          { m_obj := obj
            m_port := { isOpen := true }
            m_options := o
            m_rxErrors0 := 0
            m_rxErrors1 := 0
            m_rxfifo := []
            pendingOp := none }, true)

/-- The device configuration the constructor actually applies to the
handle: the five set_option calls of the constructor body, nothing more. -/
structure AppliedConfig where
  baudrate : Nat
  parity : Parity
  charsize : Nat
  stop_bits : StopBits
  flow_control : FlowControl
deriving DecidableEq, Repr

/-- The applied configuration as a function of the options, read off the
five set_option calls in the constructor body. -/
def appliedConfig (o : Options) : AppliedConfig :=
  { baudrate := o.baudrate
    parity := o.parity
    charsize := o.charsize
    stop_bits := o.stop_bits
    flow_control := o.flow_control }

/-- Host language slot values this module needs. -/
inductive Slot
  | nil
  | int (n : Int)
  | char (c : Nat)
  | boolean (b : Bool)
deriving DecidableEq, Repr

/-- Primitive result codes of the host runtime. -/
inductive PrimError
  | errNone
  | errFailed
  | errWrongType
deriving DecidableEq, Repr

/-- Result of prSerialPort_Open: the primitive result code, the content of
slot 0 of the host object after the call, the posted error message when
construction failed, and whether an open native handle leaked (open but not
owned by an engine reachable from slot 0). -/
structure OpenResult where
  err : PrimError
  slot0 : Option SerialPort
  postedError : Option String
  leakedHandle : Bool
deriving Repr

/-- prSerialPort_Open from the source, over already extracted argument
values (the slot reads slotStrVal, IsTrue and slotIntVal are modelled as
given scalars). The primitive fails when slot 0 already holds an engine;
otherwise it assembles the Options exactly as the source does, constructs
the engine inside a try block whose catch posts a descriptive message and
returns errFailed, and only on success stores the engine into slot 0. -/
def prSerialPort_Open (slot0 : Option SerialPort) (env : OpenEnv)
    (exclusiveArg : Bool) (baudrate charsize : Nat) (twoStopBits : Bool)
    (parityCode : Int) (crtsctsArg : Bool) (xonxoff : Bool) : OpenResult :=
  if slot0.isSome then
    { err := PrimError.errFailed, slot0 := slot0, postedError := none
      leakedHandle := false }
  else
    let o : Options :=
      { exclusive := exclusiveArg
        baudrate := baudrate
        charsize := charsize
        stop_bits := if twoStopBits then StopBits.two else StopBits.one
        parity := asParityType parityCode
        crtscts := crtsctsArg
        flow_control := if xonxoff then FlowControl.software
                        else FlowControl.hardware }
    match serialPortConstruct (some 0) env o with
    | (Except.error msg, leaked) =>
        { err := PrimError.errFailed, slot0 := none
          postedError := some msg, leakedHandle := leaked }
    | (Except.ok port, _) =>
        { err := PrimError.errNone, slot0 := some port
          postedError := none, leakedHandle := false }

/-- prSerialPort_Close from the source: fails when slot 0 holds no engine;
otherwise calls stop on the engine. The primitive does not catch, so an
error raised by stop escapes; and it does not clear slot 0, so a second
close reaches stop again on the same engine. -/
def prSerialPort_Close (slot0 : Option SerialPort) :
    Except ErrorCode (PrimError × Option SerialPort) :=
  match slot0 with
  | none => Except.ok (PrimError.errFailed, none)
  | some port =>
      match port.stop with
      | Except.error e => Except.error e
      | Except.ok q => Except.ok (PrimError.errNone, some q)

/-- prSerialPort_Next from the source: fails when slot 0 holds no engine;
otherwise pops one byte via get, storing it as an int slot, or nil when the
FIFO reported no data. -/
def prSerialPort_Next (slot0 : Option SerialPort) :
    PrimError × Slot × Option SerialPort :=
  match slot0 with
  | none => (PrimError.errFailed, Slot.nil, none)
  | some port =>
      match port.get with
      | (some b, q) => (PrimError.errNone, Slot.int b, some q)
      | (none, q) => (PrimError.errNone, Slot.nil, some q)

/-- Result of prSerialPort_Put: the primitive result code, the slot value
stored into the receiver, the bytes that reached the device, and the error
code of an exception that escaped the primitive, if any (the source wraps
nothing in a try block). -/
structure PutResult where
  err : PrimError
  resultSlot : Slot
  bytesWritten : List Nat
  thrown : Option ErrorCode
deriving DecidableEq, Repr

/-- prSerialPort_Put from the source: fails when slot 0 holds no engine;
reads the value from a char slot via slotRawChar, else through slotIntVal
(failing with a type error on other slots); masks the int value with 0xFF
(the nonnegative low eight bits of the twos complement int); and calls
put with it, storing the boolean result into the receiver slot. An
exception raised by put on a closed handle escapes the primitive. -/
def prSerialPort_Put (slot0 : Option SerialPort) (src : Slot)
    (devAccept : Nat) : PutResult :=
  match slot0 with
  | none =>
      { err := PrimError.errFailed, resultSlot := Slot.nil
        bytesWritten := [], thrown := none }
  | some port =>
      match src with
      | Slot.char c => putVal port c devAccept
      | Slot.int n => putVal port (n.emod 256).toNat devAccept
      | _ =>
          { err := PrimError.errWrongType, resultSlot := Slot.nil
            bytesWritten := [], thrown := none }
where
  /-- The tail of the primitive after the value was extracted and masked. -/
  putVal (port : SerialPort) (v : Nat) (devAccept : Nat) : PutResult :=
    match port.put v devAccept with
    | Except.error e =>
        { err := PrimError.errFailed, resultSlot := Slot.nil
          bytesWritten := [], thrown := some e }
    | Except.ok (res, written) =>
        { err := PrimError.errNone, resultSlot := Slot.boolean res
          bytesWritten := written, thrown := none }

/-- prSerialPort_RXErrors from the source: fails when slot 0 holds no
engine; otherwise stores the error delta as an int slot. -/
def prSerialPort_RXErrors (slot0 : Option SerialPort) :
    PrimError × Slot × Option SerialPort :=
  match slot0 with
  | none => (PrimError.errFailed, Slot.nil, none)
  | some port =>
      (PrimError.errNone, Slot.int port.rxErrors.1, some port.rxErrors.2)

/-- Repeatedly call get, collecting popped bytes until get reports no data;
the fuel bounds the number of calls. Returns the collected bytes and the
engine state after the calls. -/
def drainFuel : Nat → SerialPort → List Nat × SerialPort
  | 0, p => ([], p)
  | Nat.succ n, p =>
      match p.get with
      | (none, q) => ([], q)
      | (some b, q) =>
          let r := drainFuel n q
          (b :: r.1, r.2)

/-- A construction environment in which nothing fails. -/
def noFailEnv : OpenEnv :=
  { openFails := false, optionFails := fun _ => false }

/-- The option defaults of the C++ struct. -/
def defaultOptions : Options := {}

/-- The engine produced by a successful construction with the default
options, as built by serialPortConstruct. -/
def openedEngine : SerialPort :=
  { m_obj := some 0
    m_port := { isOpen := true }
    m_options := defaultOptions
    m_rxErrors0 := 0
    m_rxErrors1 := 0
    m_rxfifo := []
    pendingOp := none }

/-- The engine state after one successful stop of openedEngine. -/
def stoppedEngine : SerialPort :=
  { openedEngine with m_port := { isOpen := false } }

/-- C1: the claim states that every armed iteration of the continuous loop
issues a read whose completion delivers inbound device bytes. The code
violates it: startRead issues async_write_some, an outbound write of the
scratch buffer. Evaluated at the first armed iteration on a freshly opened
engine: the outstanding operation is a write, and a write is not a read. -/
theorem startRead_issues_write :
    openedEngine.startRead.pendingOp = some OpKind.write ∧
    OpKind.write ≠ OpKind.read :=
  ⟨rfl, by decide⟩

/-- C2: the claim states that a successful Open returns with the read loop
already armed (one asynchronous read outstanding). The code violates it:
neither the constructor nor prSerialPort_Open ever calls startRead, so the
successful open below returns an engine with no outstanding operation at
all. -/
theorem open_returns_with_no_outstanding_read :
    (prSerialPort_Open none noFailEnv false 9600 8 true 0 false false).err
      = PrimError.errNone ∧
    (prSerialPort_Open none noFailEnv false 9600 8 true 0 false false).slot0
      = some openedEngine ∧
    openedEngine.pendingOp = none :=
  ⟨rfl, rfl, rfl⟩

/-- C3: the claim states that a completion handled after Stop() checks the
stopped state and does not start another read. The code violates it: doRead
has no stopped state check, and on the error completion of the cancelled
operation (operation_aborted) it unconditionally calls startRead, arming a
new operation on the stopped engine. -/
theorem doRead_rearms_after_stop :
    openedEngine.stop = Except.ok stoppedEngine ∧
    (stoppedEngine.doRead (some ErrorCode.operationAborted) []).pendingOp
      = some OpKind.write :=
  ⟨rfl, rfl⟩

/-- C4: the claim states that Stop() is idempotent and every call succeeds.
The code violates it: the second stop reaches m_port.cancel() on the closed
handle, which per documented asio semantics raises bad_descriptor, and the
exception escapes stop (and would escape the destructor). -/
theorem stop_after_stop_raises :
    openedEngine.stop = Except.ok stoppedEngine ∧
    stoppedEngine.stop = Except.error ErrorCode.badDescriptor :=
  ⟨rfl, rfl⟩

/-- C5: the claim states that after Stop() every Write returns false or a
defined closed error result and nothing escapes. The code violates it: Put
on the stopped engine reaches write_some on the closed handle and the
raised bad_descriptor exception escapes prSerialPort_Put uncaught. -/
theorem put_after_stop_escapes :
    openedEngine.stop = Except.ok stoppedEngine ∧
    (prSerialPort_Put (some stoppedEngine) (Slot.int 65) 1).thrown
      = some ErrorCode.badDescriptor :=
  ⟨rfl, rfl⟩

/-- C9: the write primitive accepts a char or any integer slot and masks
the value with 0xFF, so Put with integer n writes the single byte n mod 256
to the device (and a char slot is accepted as well). Stated for any open
engine and any device layer that accepts the byte. -/
theorem put_truncates_int_to_low_byte (p : SerialPort) (n : Int) (c : Nat)
    (d : Nat) (hopen : p.m_port.isOpen = true) (hd : 1 ≤ d) :
    (prSerialPort_Put (some p) (Slot.int n) d).bytesWritten
      = [(n.emod 256).toNat] ∧
    (prSerialPort_Put (some p) (Slot.int n) d).err = PrimError.errNone ∧
    (prSerialPort_Put (some p) (Slot.char c) d).err = PrimError.errNone := by
  have h0 : (0:Int) ≤ n.emod 256 := Int.emod_nonneg n (by decide)
  have h1 : n.emod 256 < 256 := Int.emod_lt_of_pos n (by decide)
  have h2 : (n.emod 256).toNat < 256 := by omega
  have hmin : min d 1 = 1 := Nat.min_eq_right hd
  refine ⟨?_, ?_, ?_⟩ <;>
    simp [prSerialPort_Put, prSerialPort_Put.putVal, SerialPort.put, hopen,
      hmin, Nat.mod_eq_of_lt h2]

/-- Witness for C9 at the concrete input n = 300 on the freshly opened
engine: the byte written is 300 mod 256 = 44. -/
theorem put_truncates_int_to_low_byte_witness :
    openedEngine.m_port.isOpen = true ∧ (1:Nat) ≤ 1 ∧
    (prSerialPort_Put (some openedEngine) (Slot.int 300) 1).bytesWritten
      = [((300:Int).emod 256).toNat] ∧
    ((300:Int).emod 256).toNat = 44 :=
  ⟨rfl, Nat.le_refl 1,
    (put_truncates_int_to_low_byte openedEngine 300 65 1 rfl
      (Nat.le_refl 1)).1, by decide⟩

/-- C10: the exclusive and crtscts flags are parsed and stored in the
options but the constructor never applies them to the handle, so two open
calls whose arguments differ only in those two flags apply the identical
device configuration. -/
theorem exclusive_crtscts_never_applied (o : Options) (e1 c1 e2 c2 : Bool) :
    appliedConfig { o with exclusive := e1, crtscts := c1 }
      = appliedConfig { o with exclusive := e2, crtscts := c2 } :=
  rfl

/-- A construction environment in which opening the device fails. -/
def openFailEnv : OpenEnv :=
  { openFails := true, optionFails := fun _ => false }

/-- C8: Open is atomic on failure. For every environment in which opening
the device or applying one of the five options fails, and for all argument
values, prSerialPort_Open returns errFailed, posts a descriptive message,
leaves slot 0 of the host object unset, and leaks no open device handle. -/
theorem open_atomic_on_failure (env : OpenEnv) (ex : Bool) (baud ch : Nat)
    (tsb : Bool) (par : Int) (cr xo : Bool)
    (h : env.openFails = true ∨ ∃ i, i < 5 ∧ env.optionFails i = true) :
    (prSerialPort_Open none env ex baud ch tsb par cr xo).err
      = PrimError.errFailed ∧
    (prSerialPort_Open none env ex baud ch tsb par cr xo).slot0 = none ∧
    (prSerialPort_Open none env ex baud ch tsb par cr xo).leakedHandle
      = false ∧
    (prSerialPort_Open none env ex baud ch tsb par cr xo).postedError
      ≠ none := by
  by_cases ho : env.openFails
  · refine ⟨?_, ?_, ?_, ?_⟩ <;> simp [prSerialPort_Open, serialPortConstruct, ho]
  · have hex : ∃ i, i < 5 ∧ env.optionFails i = true := by
      rcases h with h | h
      · exact absurd h ho
      · exact h
    have hsome : ((List.range 5).find? env.optionFails).isSome := by
      rw [List.find?_isSome]
      rcases hex with ⟨i, hi, hp⟩
      exact ⟨i, List.mem_range.mpr hi, hp⟩
    rcases Option.isSome_iff_exists.mp hsome with ⟨j, hj⟩
    refine ⟨?_, ?_, ?_, ?_⟩ <;>
      simp [prSerialPort_Open, serialPortConstruct, ho, hj]

/-- Witness for C8: the environment in which opening the device itself
fails, with the default scenario arguments. -/
theorem open_atomic_on_failure_witness :
    (openFailEnv.openFails = true ∨
      ∃ i, i < 5 ∧ openFailEnv.optionFails i = true) ∧
    (prSerialPort_Open none openFailEnv false 9600 8 true 0 false false).err
      = PrimError.errFailed ∧
    (prSerialPort_Open none openFailEnv false 9600 8 true 0 false false).slot0
      = none ∧
    (prSerialPort_Open none openFailEnv false 9600 8 true 0 false
      false).leakedHandle = false ∧
    (prSerialPort_Open none openFailEnv false 9600 8 true 0 false
      false).postedError ≠ none :=
  ⟨Or.inl rfl,
    open_atomic_on_failure openFailEnv false 9600 8 true 0 false false
      (Or.inl rfl)⟩

/-- Updating the outstanding operation commutes with one push: the push
loop never reads or writes pendingOp. -/
theorem pushByte_pendingOp (p : SerialPort) (x : Option OpKind) (b : Nat) :
    pushByte { p with pendingOp := x } b
      = { pushByte p b with pendingOp := x } := by
  cases p with
  | mk o port opts e0 e1 fifo po =>
      by_cases hl : fifo.length < kBufferSize <;> simp [pushByte, hl]

/-- Updating the outstanding operation commutes with the push loop. -/
theorem pushBytes_pendingOp (bs : List Nat) (p : SerialPort)
    (x : Option OpKind) :
    pushBytes { p with pendingOp := x } bs
      = { pushBytes p bs with pendingOp := x } := by
  induction bs generalizing p with
  | nil => rfl
  | cons b bs ih =>
      simp only [pushBytes, List.foldl_cons]
      rw [pushByte_pendingOp]
      exact ih (pushByte p b)

/-- The push loop over a concatenation is the push loop run twice. -/
theorem pushBytes_append (p : SerialPort) (a b : List Nat) :
    pushBytes p (a ++ b) = pushBytes (pushBytes p a) b := by
  simp [pushBytes, List.foldl_append]

/-- doRead on a success completion, unfolded. -/
theorem doRead_none_eq (p : SerialPort) (c : List Nat) :
    p.doRead none c
      = { pushBytes p c with pendingOp := some OpKind.write } := rfl

/-- Folding doRead success completions over a list of chunks is the push
loop over the concatenation of the chunks, except for the outstanding
operation field, which records the final startRead when at least one
completion was handled. -/
theorem foldl_doRead_eq (cs : List (List Nat)) (p : SerialPort) :
    cs.foldl (fun q c => q.doRead none c) p
      = { pushBytes p cs.flatten with
          pendingOp :=
            cs.foldl (fun _ _ => some OpKind.write) p.pendingOp } := by
  induction cs generalizing p with
  | nil => rfl
  | cons c cs ih =>
      simp only [List.foldl_cons, List.flatten_cons]
      rw [ih, doRead_none_eq, pushBytes_append]
      rw [pushBytes_pendingOp]

/-- When the FIFO has room for all pushed bytes, the push loop appends them
(as uint8 values) and touches nothing else. -/
theorem pushBytes_no_overflow (bs : List Nat) (p : SerialPort)
    (h : p.m_rxfifo.length + bs.length ≤ kBufferSize) :
    pushBytes p bs
      = { p with m_rxfifo := p.m_rxfifo ++ bs.map (fun b => b % 256) } := by
  induction bs generalizing p with
  | nil =>
      simp only [pushBytes, List.foldl_nil, List.map_nil, List.append_nil]
  | cons b bs ih =>
      have hl : p.m_rxfifo.length < kBufferSize := by
        simp only [List.length_cons] at h
        omega
      simp only [pushBytes, List.foldl_cons, List.map_cons]
      have hb : pushByte p b = { p with m_rxfifo := p.m_rxfifo ++ [b % 256] } := by
        simp [pushByte, hl]
      rw [hb]
      have hlen : ({ p with m_rxfifo := p.m_rxfifo ++ [b % 256] }
          : SerialPort).m_rxfifo.length + bs.length ≤ kBufferSize := by
        simp only [List.length_append, List.length_cons] at h ⊢
        simp only [List.length_nil]
        omega
      rw [show bs.foldl pushByte { p with m_rxfifo := p.m_rxfifo ++ [b % 256] }
            = pushBytes { p with m_rxfifo := p.m_rxfifo ++ [b % 256] } bs from rfl,
          ih _ hlen]
      simp

/-- The push loop keeps the FIFO within capacity, increments the overflow
total by exactly the number of bytes that did not fit, and leaves the last
queried slot alone. -/
theorem pushBytes_counts (bs : List Nat) (p : SerialPort)
    (h : p.m_rxfifo.length ≤ kBufferSize) :
    (pushBytes p bs).m_rxfifo.length
        = min (p.m_rxfifo.length + bs.length) kBufferSize ∧
    (pushBytes p bs).m_rxErrors1
        = p.m_rxErrors1 + ((p.m_rxfifo.length + bs.length - kBufferSize : Nat) : Int) ∧
    (pushBytes p bs).m_rxErrors0 = p.m_rxErrors0 := by
  induction bs generalizing p with
  | nil =>
      refine ⟨?_, ?_, rfl⟩ <;> simp [pushBytes] <;> omega
  | cons b bs ih =>
      by_cases hl : p.m_rxfifo.length < kBufferSize
      · have hb : pushByte p b
            = { p with m_rxfifo := p.m_rxfifo ++ [b % 256] } := by
          simp [pushByte, hl]
        have step : pushBytes p (b :: bs)
            = pushBytes { p with m_rxfifo := p.m_rxfifo ++ [b % 256] } bs := by
          simp only [pushBytes, List.foldl_cons, hb]
        rcases ih { p with m_rxfifo := p.m_rxfifo ++ [b % 256] }
            (by simp only [List.length_append, List.length_cons,
              List.length_nil]; omega) with ⟨h1, h2, h3⟩
        simp only [List.length_append, List.length_cons, List.length_nil]
          at h1 h2 h3
        have harg : p.m_rxfifo.length + (0 + 1) + bs.length
            = p.m_rxfifo.length + (bs.length + 1) := by omega
        rw [harg] at h1 h2
        rw [step]
        exact ⟨by rw [h1]; simp, by rw [h2]; simp, h3⟩
      · have hfull : p.m_rxfifo.length = kBufferSize := by omega
        have hb : pushByte p b
            = { p with m_rxErrors1 := p.m_rxErrors1 + 1 } := by
          simp [pushByte, hl]
        have step : pushBytes p (b :: bs)
            = pushBytes { p with m_rxErrors1 := p.m_rxErrors1 + 1 } bs := by
          simp only [pushBytes, List.foldl_cons, hb]
        rcases ih { p with m_rxErrors1 := p.m_rxErrors1 + 1 }
            (by simpa using h) with ⟨h1, h2, h3⟩
        rw [step]
        refine ⟨?_, ?_, ?_⟩
        · rw [h1]
          simp only [List.length_cons, hfull]
          rw [Nat.min_eq_right (Nat.le_add_right kBufferSize bs.length),
              Nat.min_eq_right (Nat.le_add_right kBufferSize (bs.length + 1))]
        · rw [h2]
          simp only [List.length_cons, hfull]
          have e1 : kBufferSize + bs.length - kBufferSize = bs.length := by omega
          have e2 : kBufferSize + (bs.length + 1) - kBufferSize
              = bs.length + 1 := by omega
          rw [e1, e2]
          push_cast
          ring
        · rw [h3]

/-- The engine reached from the freshly opened engine by a run of success
completions delivering the given chunks, in order, with no intervening
consumer activity. -/
def runCompletions (cs : List (List Nat)) : SerialPort :=
  cs.foldl (fun q c => q.doRead none c) openedEngine

/-- Masking with 0xFF changes nothing on uint8 values. -/
theorem map_mod_eq_self (l : List Nat) (h : ∀ b ∈ l, b < 256) :
    l.map (fun b => b % 256) = l := by
  induction l with
  | nil => rfl
  | cons b l ih =>
      have hb := h b (List.mem_cons_self b l)
      simp only [List.map_cons]
      rw [Nat.mod_eq_of_lt hb, ih (fun x hx => h x (List.mem_cons_of_mem b hx))]

/-- Writing back the FIFO it already holds leaves the engine unchanged. -/
theorem fifo_set_self (p : SerialPort) (l : List Nat)
    (h : p.m_rxfifo = l) : ({ p with m_rxfifo := l } : SerialPort) = p := by
  cases p
  cases h
  rfl

/-- Draining with fuel equal to the FIFO length pops exactly the FIFO
contents, in order, and empties the FIFO. -/
theorem drainFuel_drains (l : List Nat) (p : SerialPort)
    (hf : p.m_rxfifo = l) (hb : ∀ b ∈ l, b < 256) :
    drainFuel l.length p = (l, { p with m_rxfifo := [] }) := by
  induction l generalizing p with
  | nil =>
      simp only [List.length_nil, drainFuel]
      rw [fifo_set_self p [] hf]
  | cons b l ih =>
      have hget : p.get = (some (b % 256), { p with m_rxfifo := l }) := by
        simp [SerialPort.get, hf]
      have hb0 : b % 256 = b := Nat.mod_eq_of_lt (hb b (List.mem_cons_self b l))
      simp only [List.length_cons, drainFuel, hget, hb0]
      rw [ih { p with m_rxfifo := l } rfl
        (fun x hx => hb x (List.mem_cons_of_mem b hx))]

/-- C6: when more than kBufferSize bytes arrive through success completions
before any Read, the overflow total counts exactly the excess, rxErrors
reports that count once, and an immediate second rxErrors reports zero. -/
theorem rx_overflow_counted_once (cs : List (List Nat))
    (h : kBufferSize < cs.flatten.length) :
    (runCompletions cs).m_rxErrors1
        = (cs.flatten.length : Int) - (kBufferSize : Int) ∧
    (runCompletions cs).rxErrors.1
        = (cs.flatten.length : Int) - (kBufferSize : Int) ∧
    (runCompletions cs).rxErrors.2.rxErrors.1 = 0 := by
  rcases pushBytes_counts cs.flatten openedEngine (Nat.zero_le _)
    with ⟨h1, h2, h3⟩
  have hrun : runCompletions cs
      = { pushBytes openedEngine cs.flatten with
          pendingOp :=
            cs.foldl (fun _ _ => some OpKind.write) openedEngine.pendingOp } :=
    foldl_doRead_eq cs openedEngine
  have er1 : (runCompletions cs).m_rxErrors1
      = (cs.flatten.length : Int) - (kBufferSize : Int) := by
    rw [hrun]
    show (pushBytes openedEngine cs.flatten).m_rxErrors1 = _
    rw [h2]
    show (0 : Int) + ((0 + cs.flatten.length - kBufferSize : Nat) : Int) = _
    omega
  have er0 : (runCompletions cs).m_rxErrors0 = 0 := by
    rw [hrun]
    show (pushBytes openedEngine cs.flatten).m_rxErrors0 = _
    rw [h3]
    rfl
  refine ⟨er1, ?_, ?_⟩
  · simp [SerialPort.rxErrors, er1, er0]
  · simp [SerialPort.rxErrors]

/-- Witness for C6: a single completion of kBufferSize + 1 bytes overflows
by exactly one, and the overflow total records one. -/
theorem rx_overflow_counted_once_witness :
    kBufferSize
        < ([List.replicate (kBufferSize + 1) 7] : List (List Nat)).flatten.length ∧
    (runCompletions [List.replicate (kBufferSize + 1) 7]).m_rxErrors1
        = ((([List.replicate (kBufferSize + 1) 7]
            : List (List Nat)).flatten.length : Int) - (kBufferSize : Int)) :=
  have h : kBufferSize
      < ([List.replicate (kBufferSize + 1) 7] : List (List Nat)).flatten.length := by
    simp only [List.flatten_cons, List.flatten_nil, List.append_nil,
      List.length_replicate]
    omega
  ⟨h, (rx_overflow_counted_once [List.replicate (kBufferSize + 1) 7] h).1⟩

/-- C7: when the bytes of a run of success completions fit in the FIFO (no
overflow is possible), repeated Read calls yield exactly the arrived bytes
in arrival order, and the next Read after draining yields nothing. -/
theorem fifo_order_preserved (cs : List (List Nat))
    (h1 : cs.flatten.length ≤ kBufferSize)
    (h2 : ∀ b ∈ cs.flatten, b < 256) :
    (drainFuel cs.flatten.length (runCompletions cs)).1 = cs.flatten ∧
    ((drainFuel cs.flatten.length (runCompletions cs)).2.get).1 = none := by
  have hrun : runCompletions cs
      = { pushBytes openedEngine cs.flatten with
          pendingOp :=
            cs.foldl (fun _ _ => some OpKind.write) openedEngine.pendingOp } :=
    foldl_doRead_eq cs openedEngine
  have hpb : pushBytes openedEngine cs.flatten
      = { openedEngine with
          m_rxfifo :=
            openedEngine.m_rxfifo ++ cs.flatten.map (fun b => b % 256) } :=
    pushBytes_no_overflow cs.flatten openedEngine
      (by simpa [openedEngine] using h1)
  have hfifo : (runCompletions cs).m_rxfifo = cs.flatten := by
    rw [hrun]
    show (pushBytes openedEngine cs.flatten).m_rxfifo = _
    rw [hpb]
    show [] ++ cs.flatten.map (fun b => b % 256) = _
    rw [List.nil_append, map_mod_eq_self cs.flatten h2]
  have hdrain := drainFuel_drains cs.flatten (runCompletions cs) hfifo h2
  refine ⟨?_, ?_⟩
  · rw [hdrain]
  · rw [hdrain]
    simp [SerialPort.get]

/-- Witness for C7: chunks of one and two bytes drain as the three bytes in
arrival order, then nothing. -/
theorem fifo_order_preserved_witness :
    ([[65], [66, 67]] : List (List Nat)).flatten.length ≤ kBufferSize ∧
    (∀ b ∈ ([[65], [66, 67]] : List (List Nat)).flatten, b < 256) ∧
    ((drainFuel ([[65], [66, 67]] : List (List Nat)).flatten.length
        (runCompletions [[65], [66, 67]])).1
      = ([[65], [66, 67]] : List (List Nat)).flatten ∧
    ((drainFuel ([[65], [66, 67]] : List (List Nat)).flatten.length
        (runCompletions [[65], [66, 67]])).2.get).1 = none) :=
  have h1 : ([[65], [66, 67]] : List (List Nat)).flatten.length
      ≤ kBufferSize := by decide
  have h2 : ∀ b ∈ ([[65], [66, 67]] : List (List Nat)).flatten,
      b < 256 := by decide
  ⟨h1, h2, fifo_order_preserved [[65], [66, 67]] h1 h2⟩

end PyrSerial
